import Mathlib

/-!
Verification development for the AI-Powered Dispute Assistant.

The repository ships the Next.js frontend (`frontend/app/...`); the FastAPI
backend that implements the classification pipeline and the duplicate
detector is described by the specification but its source is not part of the
checked-in tree.  Components that live only in the spec are therefore
modelled from the spec (each such definition says so in its doc comment);
the frontend components (`DisputesTable`, the dispute-detail page,
`StatusUpdater`, `ChatInterface`) are embedded directly from their
TypeScript source.
-/

/-- The five dispute categories, from `frontend/app/types/index.ts`
(`predicted_category` union type). -/
inductive Category where
  | DUPLICATE_CHARGE
  | FAILED_TRANSACTION
  | FRAUD
  | REFUND_PENDING
  | OTHERS
  deriving DecidableEq, Repr

/-- The four dispute statuses, from `frontend/app/types/index.ts`
(`status` union type). -/
inductive Status where
  | OPEN
  | IN_REVIEW
  | RESOLVED
  | CLOSED
  deriving DecidableEq, Repr

/-- Modelled from the spec (§6): a `TransactionRecord` as consumed by the
Duplicate Detector, whose backend implementation is not under the checked-in
source tree.  `amount` is a rational (exact-match key), `timestamp` is in
seconds. -/
structure TransactionRecord where
  customer_id : String
  txn_id : String
  amount : ℚ
  merchant : String
  timestamp : Int
  deriving DecidableEq, Repr

/-- The duplicate-candidate record, from the frontend `Duplicate` interface
in `FuzzyMatcher.tsx` (matching the spec §3 `DuplicateCandidatePair`). -/
structure DuplicateCandidatePair where
  original_txn_id : String
  duplicate_txn_id : String
  customer_id : String
  amount : ℚ
  merchant : String
  time_diff_seconds : Int
  deriving DecidableEq, Repr

/-- Case normalization of a merchant name: lowercase every character
(structural form of `String.toLower`, mapping over the underlying character
list so that it evaluates by reduction). -/
def lowerName (s : String) : String := ⟨s.data.map Char.toLower⟩

/-- Modelled from the spec (§4.6): the grouping key of the Duplicate
Detector — exact `(customer_id, amount, merchant)` with the merchant name
case-normalized. -/
def groupKey (t : TransactionRecord) : String × ℚ × String :=
  (t.customer_id, t.amount, lowerName t.merchant)

/-- Modelled from the spec (§4.6): the fixed duplicate window, 5 minutes =
300 seconds. -/
def window : Int := 300

/-- Modelled from the spec (§3, §4.6): the candidate pair built from two
grouped transactions, recording `time_diff_seconds` as the actual gap. -/
def mkPair (a b : TransactionRecord) : DuplicateCandidatePair :=
  { original_txn_id := a.txn_id
    duplicate_txn_id := b.txn_id
    customer_id := a.customer_id
    amount := a.amount
    merchant := a.merchant
    time_diff_seconds := b.timestamp - a.timestamp }

/-- Modelled from the spec (§4.6): flag each consecutive pair of a
timestamp-sorted group whose gap is within the window. -/
def pairsOf : List TransactionRecord → List DuplicateCandidatePair
  | a :: b :: rest =>
      if b.timestamp - a.timestamp ≤ window then
        mkPair a b :: pairsOf (b :: rest)
      else
        pairsOf (b :: rest)
  | _ => []

/-- The timestamp ordering used to sort each group. -/
def byTimestamp (a b : TransactionRecord) : Prop :=
  a.timestamp ≤ b.timestamp

instance : DecidableRel byTimestamp :=
  fun a b => Int.decLe a.timestamp b.timestamp

instance : IsTotal TransactionRecord byTimestamp :=
  ⟨fun a b => Int.le_total a.timestamp b.timestamp⟩

instance : IsTrans TransactionRecord byTimestamp :=
  ⟨fun _ _ _ hab hbc => Int.le_trans hab hbc⟩

/-- Modelled from the spec (§4.6): the distinct grouping keys occurring in
the input. -/
def keysOf (ts : List TransactionRecord) : List (String × ℚ × String) :=
  (ts.map groupKey).dedup

/-- Modelled from the spec (§4.6): the members of one group, sorted by
timestamp. -/
def sortedGroup (ts : List TransactionRecord) (k : String × ℚ × String) :
    List TransactionRecord :=
  List.insertionSort byTimestamp (ts.filter (fun t => decide (groupKey t = k)))

/-- Modelled from the spec (§4.6): `scan` groups the transactions by
`(customer_id, amount, case-normalized merchant)`, sorts each group by
timestamp, and flags consecutive pairs whose gap is at most the window. -/
def scan (ts : List TransactionRecord) : List DuplicateCandidatePair :=
  (keysOf ts).flatMap (fun k => pairsOf (sortedGroup ts k))

/-- The windowed-adjacent-pairs characterization of `pairsOf`: exactly the
consecutive pairs (the list zipped with its own tail) whose gap is within
the window are flagged. -/
theorem pairsOf_eq_zip (l : List TransactionRecord) :
    pairsOf l =
      ((l.zip l.tail).filter
          (fun p => decide (p.2.timestamp - p.1.timestamp ≤ window))).map
        (fun p => mkPair p.1 p.2) := by
  induction l with
  | nil => rfl
  | cons a t ih =>
    cases t with
    | nil => rfl
    | cons b rest =>
      by_cases h : b.timestamp - a.timestamp ≤ window
      · simp only [pairsOf, if_pos h, List.tail_cons, List.zip_cons_cons,
          List.filter_cons, decide_eq_true h, List.map_cons]
        exact congrArg _ ih
      · simp only [pairsOf, if_neg h, List.tail_cons, List.zip_cons_cons,
          List.filter_cons, decide_eq_false h]
        exact ih

/-- Example transactions for the window tests: same customer, amount and
merchant, 250 seconds apart (and a 400-second variant). -/
def txnA : TransactionRecord :=
  { customer_id := "C001", txn_id := "TXN-A", amount := 10, merchant := "coffee shop",
    timestamp := 1000 }

/-- Second transaction of the 250-second pair. -/
def txnB250 : TransactionRecord :=
  { customer_id := "C001", txn_id := "TXN-B", amount := 10, merchant := "coffee shop",
    timestamp := 1250 }

/-- Second transaction of the 400-second pair. -/
def txnB400 : TransactionRecord :=
  { customer_id := "C001", txn_id := "TXN-B", amount := 10, merchant := "coffee shop",
    timestamp := 1400 }

/-- Third transaction, 250 seconds after `txnB250`, for the chain test. -/
def txnC500 : TransactionRecord :=
  { customer_id := "C001", txn_id := "TXN-C", amount := 10, merchant := "coffee shop",
    timestamp := 1500 }

/-- C1: within a group, `scan` flags exactly the consecutive
timestamp-ordered pairs whose gap is at most the 300-second window,
recording the actual gap; two matching transactions 250 seconds apart are
reported with `time_diff_seconds = 250`, and at 400 seconds apart they are
not reported. -/
theorem scan_window_correct :
    (∀ ts : List TransactionRecord,
        scan ts =
          (keysOf ts).flatMap (fun k =>
            (((sortedGroup ts k).zip (sortedGroup ts k).tail).filter
                (fun p => decide (p.2.timestamp - p.1.timestamp ≤ window))).map
              (fun p => mkPair p.1 p.2)))
    ∧ (∀ a b : TransactionRecord, (mkPair a b).time_diff_seconds = b.timestamp - a.timestamp)
    ∧ scan [txnA, txnB250] =
        [{ original_txn_id := "TXN-A", duplicate_txn_id := "TXN-B",
           customer_id := "C001", amount := 10, merchant := "coffee shop",
           time_diff_seconds := 250 }]
    ∧ scan [txnA, txnB400] = [] := by
  refine ⟨fun ts => ?_, fun a b => rfl, by decide, by decide⟩
  unfold scan
  exact congrArg _ (funext fun k => pairsOf_eq_zip _)

/-- Membership in a sorted group means membership in the input with the
matching grouping key. -/
theorem mem_sortedGroup {ts : List TransactionRecord}
    {k : String × ℚ × String} {t : TransactionRecord}
    (h : t ∈ sortedGroup ts k) : t ∈ ts ∧ groupKey t = k := by
  have h2 : t ∈ ts.filter (fun t => decide (groupKey t = k)) :=
    (List.Perm.mem_iff (List.perm_insertionSort byTimestamp _)).mp h
  have h3 := List.mem_filter.mp h2
  exact ⟨h3.1, of_decide_eq_true h3.2⟩

/-- Two adjacent elements of a pairwise-related list are related. -/
theorem rel_of_mem_zip_tail {α : Type} {r : α → α → Prop} :
    ∀ {l : List α} {a b : α}, l.Pairwise r → (a, b) ∈ l.zip l.tail → r a b := by
  intro l
  induction l with
  | nil => intro a b _ h; simp at h
  | cons x t ih =>
    intro a b hp hm
    cases t with
    | nil => simp at hm
    | cons y t2 =>
      rw [List.tail_cons, List.zip_cons_cons, List.mem_cons] at hm
      rcases hm with heq | hm
      · have hxy : a = x ∧ b = y := Prod.mk.injEq .. ▸ heq
        obtain ⟨rfl, rfl⟩ := hxy
        exact (List.pairwise_cons.mp hp).1 b (List.mem_cons_self b t2)
      · exact ih (List.Pairwise.of_cons hp) hm

/-- C2: every candidate pair reported by `scan` comes from two input
transactions with the same `(customer_id, amount, case-normalized merchant)`
grouping key, ordered and within the window — transactions differing in any
key component are never paired; and a chain of three in-window transactions
yields exactly the two adjacent pairs, never the non-adjacent one. -/
theorem scan_grouping_isolation :
    (∀ (ts : List TransactionRecord) (p : DuplicateCandidatePair),
        p ∈ scan ts →
          ∃ a b, a ∈ ts ∧ b ∈ ts ∧ groupKey a = groupKey b ∧
            a.timestamp ≤ b.timestamp ∧ b.timestamp - a.timestamp ≤ window ∧
            p = mkPair a b)
    ∧ (∀ a b c : TransactionRecord,
        groupKey a = groupKey b → groupKey b = groupKey c →
        a.timestamp ≤ b.timestamp → b.timestamp ≤ c.timestamp →
        b.timestamp - a.timestamp ≤ window → c.timestamp - b.timestamp ≤ window →
        scan [a, b, c] = [mkPair a b, mkPair b c]) := by
  constructor
  · intro ts p hp
    rw [scan, List.mem_flatMap] at hp
    obtain ⟨k, hk, hpk⟩ := hp
    rw [pairsOf_eq_zip, List.mem_map] at hpk
    obtain ⟨⟨a, b⟩, hq, rfl⟩ := hpk
    rw [List.mem_filter] at hq
    obtain ⟨hqz, hqw⟩ := hq
    have hmem := List.of_mem_zip hqz
    obtain ⟨ha1, ha2⟩ := mem_sortedGroup hmem.1
    obtain ⟨hb1, hb2⟩ := mem_sortedGroup (List.mem_of_mem_tail hmem.2)
    have hsorted : List.Sorted byTimestamp (sortedGroup ts k) :=
      List.sorted_insertionSort byTimestamp _
    have hle : byTimestamp a b := rel_of_mem_zip_tail hsorted hqz
    exact ⟨a, b, ha1, hb1, ha2.trans hb2.symm, hle, of_decide_eq_true hqw, rfl⟩
  · intro a b c hab hbc hts1 hts2 hw1 hw2
    have hsorted : List.Sorted byTimestamp [a, b, c] := by
      refine List.sorted_cons.mpr ⟨?_, List.sorted_cons.mpr ⟨?_, List.sorted_singleton c⟩⟩
      · intro x hx
        rcases List.mem_cons.mp hx with rfl | hx
        · exact hts1
        · rcases List.mem_cons.mp hx with rfl | hx
          · exact le_trans hts1 hts2
          · simp at hx
      · intro x hx
        rcases List.mem_cons.mp hx with rfl | hx
        · exact hts2
        · simp at hx
    have hac : groupKey a = groupKey c := hab.trans hbc
    have hfil : List.filter (fun t => decide (groupKey t = groupKey c)) [a, b, c]
        = [a, b, c] := by
      simp [List.filter_cons, hac, hbc]
    have hkeys : keysOf [a, b, c] = [groupKey c] := by
      rw [keysOf]
      simp only [List.map_cons, List.map_nil, hab, hbc]
      rw [List.dedup_cons_of_mem (by simp), List.dedup_cons_of_mem (by simp)]
      simp
    rw [scan, hkeys]
    simp only [List.flatMap_cons, List.flatMap_nil, List.append_nil]
    rw [sortedGroup, hfil, List.Sorted.insertionSort_eq hsorted]
    simp only [pairsOf]
    rw [if_pos hw1, if_pos hw2]

/-- Concrete instance of the grouping-isolation theorem: the reported pair
of the 250-second example originates from two same-key transactions, and
the 3-chain example yields exactly the two adjacent pairs. -/
theorem scan_grouping_isolation_witness :
    (∃ a b, a ∈ [txnA, txnB250] ∧ b ∈ [txnA, txnB250] ∧ groupKey a = groupKey b ∧
        a.timestamp ≤ b.timestamp ∧ b.timestamp - a.timestamp ≤ window ∧
        mkPair txnA txnB250 = mkPair a b)
    ∧ scan [txnA, txnB250, txnC500] = [mkPair txnA txnB250, mkPair txnB250 txnC500] :=
  ⟨scan_grouping_isolation.1 [txnA, txnB250] (mkPair txnA txnB250) (by decide),
   scan_grouping_isolation.2 txnA txnB250 txnC500 (by decide) (by decide) (by decide)
     (by decide) (by decide) (by decide)⟩

/-- Modelled from the spec (§7): the pipeline error taxonomy. -/
inductive PipelineError where
  | invalidInput
  | artifactNotLoaded
  | explanationUnavailable
  | arithmeticInconsistency
  deriving DecidableEq, Repr

/-- Modelled from the spec (§4.4): the Explanation Generator output. -/
structure Explanation where
  explanation : String
  suggested_action : String
  justification : String
  deriving DecidableEq, Repr

/-- The classified dispute record, from `frontend/app/types/index.ts`
(`Dispute` interface); `created_at` is a timestamp. -/
structure DisputeRecord where
  dispute_id : String
  customer_id : String
  txn_id : String
  description : String
  predicted_category : Category
  confidence : ℚ
  explanation : String
  suggested_action : String
  justification : String
  status : Status
  created_at : Int
  deriving DecidableEq, Repr

/-- Modelled from the spec (§9, §6): the process-wide immutable model
artifacts — the embedding model, the PCA transform (mean and component
matrix) and the trained multinomial classifier, the latter abstracted as
the probability it assigns to each category given a feature vector. -/
structure PipelineContext where
  embedFn : String → List ℚ
  pcaMean : List ℚ
  pcaComponents : List (List ℚ)
  classProbs : List ℚ → Category → ℚ

/-- Modelled from the spec (§4.3): the fixed category ordering used by the
classifier for tie-breaking. -/
def categoryOrder : List Category :=
  [Category.DUPLICATE_CHARGE, Category.FAILED_TRANSACTION, Category.FRAUD,
   Category.OTHERS, Category.REFUND_PENDING]

/-- The ordinal index of a category in the fixed ordering of §4.3. -/
def Category.rank : Category → Nat
  | Category.DUPLICATE_CHARGE => 0
  | Category.FAILED_TRANSACTION => 1
  | Category.FRAUD => 2
  | Category.OTHERS => 3
  | Category.REFUND_PENDING => 4

/-- Modelled from the spec (§4.3): scan the remaining categories keeping
the current best class and its probability; a later class wins only with a
strictly larger probability, so ties keep the earlier (lower-ordinal)
class. -/
def pickBest (probs : Category → ℚ) :
    Category → ℚ → List Category → Category × ℚ
  | best, bestP, [] => (best, bestP)
  | best, bestP, c :: rest =>
      if probs c > bestP then pickBest probs c (probs c) rest
      else pickBest probs best bestP rest

/-- Modelled from the spec (§4.3): `predict` returns the class of highest
predicted probability (first in `categoryOrder` on ties) together with that
probability as the confidence. -/
def predictCore (probs : Category → ℚ) : Category × ℚ :=
  pickBest probs Category.DUPLICATE_CHARGE (probs Category.DUPLICATE_CHARGE)
    [Category.FAILED_TRANSACTION, Category.FRAUD, Category.OTHERS,
     Category.REFUND_PENDING]

/-- Dot product of two rational vectors. -/
def dotProduct (a b : List ℚ) : ℚ := (List.zipWith (fun x y => x * y) a b).sum

/-- Modelled from the spec (§4.1): the Embedder — deterministic fixed model
weights, failing with `InvalidInputError` on empty text. -/
def embed (ctx : PipelineContext) (text : String) : Except PipelineError (List ℚ) :=
  if text = "" then Except.error PipelineError.invalidInput
  else Except.ok (ctx.embedFn text)

/-- Modelled from the spec (§4.2): the Dimensionality Reducer — subtract
the fitted mean, project onto the fitted principal-component basis. -/
def reduce (ctx : PipelineContext) (v : List ℚ) : List ℚ :=
  ctx.pcaComponents.map (fun row => dotProduct row (List.zipWith (fun x y => x - y) v ctx.pcaMean))

/-- Modelled from the spec (§8.1): the composed inference path
`embed → reduce → predict` on loaded artifacts (inference only, no
explanation call). -/
def infer (ctx : PipelineContext) (text : String) : Category × ℚ :=
  predictCore (ctx.classProbs (reduce ctx (ctx.embedFn text)))

/-- Modelled from the spec (§4.5): the Classification Pipeline Orchestrator.
It sequences embed → reduce → predict → explain, and only when every stage
succeeds builds the complete `DisputeRecord` with `status = OPEN`; any stage
failure aborts the whole classification with that stage's error. The
Explanation Generator is passed in as the external service call `svc`. -/
def classify (ctx : PipelineContext)
    (svc : String → Category → Except PipelineError Explanation)
    (description customer_id txn_id dispute_id : String) (created_at : Int) :
    Except PipelineError DisputeRecord :=
  match embed ctx description with
  | Except.error e => Except.error e
  | Except.ok emb =>
      match svc description (predictCore (ctx.classProbs (reduce ctx emb))).1 with
      | Except.error e => Except.error e
      | Except.ok ex =>
          Except.ok
            { dispute_id := dispute_id
              customer_id := customer_id
              txn_id := txn_id
              description := description
              predicted_category := (predictCore (ctx.classProbs (reduce ctx emb))).1
              confidence := (predictCore (ctx.classProbs (reduce ctx emb))).2
              explanation := ex.explanation
              suggested_action := ex.suggested_action
              justification := ex.justification
              status := Status.OPEN
              created_at := created_at }

/-- The running best of the classifier argmax always carries the
probability of the class it names. -/
theorem pickBest_snd (probs : Category → ℚ) :
    ∀ (l : List Category) (best : Category) (bestP : ℚ), bestP = probs best →
      (pickBest probs best bestP l).2 = probs (pickBest probs best bestP l).1 := by
  intro l
  induction l with
  | nil =>
    intro best bestP h
    simpa [pickBest] using h
  | cons c rest ih =>
    intro best bestP h
    simp only [pickBest]
    by_cases hc : probs c > bestP
    · rw [if_pos hc]
      exact ih c (probs c) rfl
    · rw [if_neg hc]
      exact ih best bestP h

/-- C3: the classification is atomic.  If the Explanation Generator fails,
`classify` returns an error and no `DisputeRecord`; any returned record has
its explanation fields equal to the successful generator output (never
empty-by-failure alongside a populated category) and `status = OPEN`; and
an invalid (empty) description likewise yields an error. -/
theorem classify_atomicity :
    (∀ (ctx : PipelineContext)
        (svc : String → Category → Except PipelineError Explanation)
        (d cu tx di : String) (ca : Int),
        (∀ c, ∃ e, svc d c = Except.error e) →
        ∃ e, classify ctx svc d cu tx di ca = Except.error e)
    ∧ (∀ (ctx : PipelineContext)
        (svc : String → Category → Except PipelineError Explanation)
        (d cu tx di : String) (ca : Int) (rec : DisputeRecord),
        classify ctx svc d cu tx di ca = Except.ok rec →
        ∃ ex, svc d rec.predicted_category = Except.ok ex ∧
          rec.explanation = ex.explanation ∧
          rec.suggested_action = ex.suggested_action ∧
          rec.justification = ex.justification ∧
          rec.description = d ∧ rec.status = Status.OPEN)
    ∧ (∀ (ctx : PipelineContext)
        (svc : String → Category → Except PipelineError Explanation)
        (cu tx di : String) (ca : Int),
        classify ctx svc "" cu tx di ca = Except.error PipelineError.invalidInput) := by
  refine ⟨?_, ?_, ?_⟩
  · intro ctx svc d cu tx di ca hfail
    unfold classify
    cases hemb : embed ctx d with
    | error e => exact ⟨e, rfl⟩
    | ok emb =>
      obtain ⟨e, he⟩ := hfail (predictCore (ctx.classProbs (reduce ctx emb))).1
      refine ⟨e, ?_⟩
      simp only [he]
  · intro ctx svc d cu tx di ca rec hok
    unfold classify at hok
    split at hok
    · cases hok
    · rename_i emb hemb
      split at hok
      · cases hok
      · rename_i ex hsvc
        have h := Except.ok.inj hok
        subst h
        exact ⟨ex, hsvc, rfl, rfl, rfl, rfl, rfl⟩
  · intro ctx svc cu tx di ca
    rfl

/-- A failing and a succeeding Explanation Generator stub, plus a concrete
artifact context, used to instantiate the pipeline theorems. -/
def svcFail : String → Category → Except PipelineError Explanation :=
  fun _ _ => Except.error PipelineError.explanationUnavailable

/-- A succeeding Explanation Generator stub. -/
def svcOk : String → Category → Except PipelineError Explanation :=
  fun _ _ =>
    Except.ok
      { explanation := "quoted evidence from the text"
        suggested_action := "refund the second charge"
        justification := "the description indicates a duplicate charge" }

/-- A concrete artifact context for witnesses. -/
def ctxW : PipelineContext :=
  { embedFn := fun _ => [1]
    pcaMean := [0]
    pcaComponents := [[1]]
    classProbs := fun _ _ => (1 : ℚ) }

/-- The record produced by `classify` on the witness inputs. -/
def recW : DisputeRecord :=
  { dispute_id := "D1"
    customer_id := "C1"
    txn_id := "T1"
    description := "charged twice"
    predicted_category := Category.DUPLICATE_CHARGE
    confidence := (1 : ℚ)
    explanation := "quoted evidence from the text"
    suggested_action := "refund the second charge"
    justification := "the description indicates a duplicate charge"
    status := Status.OPEN
    created_at := 0 }

/-- Concrete instance of the atomicity theorem: a failing generator aborts
the classification, a successful one yields the fully populated record, and
an empty description is rejected. -/
theorem classify_atomicity_witness :
    (∃ e, classify ctxW svcFail "charged twice" "C1" "T1" "D1" 0 = Except.error e)
    ∧ (∃ ex, svcOk "charged twice" recW.predicted_category = Except.ok ex ∧
        recW.explanation = ex.explanation ∧
        recW.suggested_action = ex.suggested_action ∧
        recW.justification = ex.justification ∧
        recW.description = "charged twice" ∧ recW.status = Status.OPEN)
    ∧ classify ctxW svcFail "" "C1" "T1" "D1" 0 = Except.error PipelineError.invalidInput :=
  ⟨classify_atomicity.1 ctxW svcFail "charged twice" "C1" "T1" "D1" 0
      (fun _ => ⟨PipelineError.explanationUnavailable, rfl⟩),
   classify_atomicity.2.1 ctxW svcOk "charged twice" "C1" "T1" "D1" 0 recW rfl,
   classify_atomicity.2.2 ctxW svcFail "C1" "T1" "D1" 0⟩

/-- C4: whenever the trained model yields a probability distribution over
the five categories, the predicted confidence lies in `[0, 1]` and the
predicted category is a member of the five-category enum. -/
theorem predict_confidence_bounds (probs : Category → ℚ)
    (h0 : ∀ c, 0 ≤ probs c)
    (h1 : probs Category.DUPLICATE_CHARGE + probs Category.FAILED_TRANSACTION +
        probs Category.FRAUD + probs Category.REFUND_PENDING +
        probs Category.OTHERS = 1) :
    0 ≤ (predictCore probs).2 ∧ (predictCore probs).2 ≤ 1 ∧
      (predictCore probs).1 ∈ categoryOrder := by
  have hsnd : (predictCore probs).2 = probs (predictCore probs).1 :=
    pickBest_snd probs _ _ _ rfl
  have hle1 : ∀ c : Category, probs c ≤ 1 := by
    intro c
    have hA := h0 Category.DUPLICATE_CHARGE
    have hB := h0 Category.FAILED_TRANSACTION
    have hC := h0 Category.FRAUD
    have hD := h0 Category.REFUND_PENDING
    have hE := h0 Category.OTHERS
    cases c <;> linarith
  refine ⟨hsnd ▸ h0 _, hsnd ▸ hle1 _, ?_⟩
  cases h : (predictCore probs).1 <;> decide

/-- Concrete instance of the confidence-bounds theorem on the uniform
distribution. -/
theorem predict_confidence_bounds_witness :
    0 ≤ (predictCore (fun _ => (1 : ℚ)/5)).2 ∧
      (predictCore (fun _ => (1 : ℚ)/5)).2 ≤ 1 ∧
      (predictCore (fun _ => (1 : ℚ)/5)).1 ∈ categoryOrder :=
  predict_confidence_bounds (fun _ => (1 : ℚ)/5) (fun _ => by norm_num) (by norm_num)

/-- C5: the inference path `embed → reduce → predict` is a pure function of
the loaded artifacts and the input text, so two runs on the same input give
the same `(category, confidence)` pair. -/
theorem infer_deterministic (ctx : PipelineContext) (text : String)
    (r₁ r₂ : Category × ℚ)
    (h₁ : r₁ = infer ctx text) (h₂ : r₂ = infer ctx text) : r₁ = r₂ :=
  h₁.trans h₂.symm

/-- Concrete instance of the determinism theorem. -/
theorem infer_deterministic_witness :
    infer ctxW "charged twice" = infer ctxW "charged twice" :=
  infer_deterministic ctxW "charged twice" _ _ rfl rfl

set_option maxHeartbeats 2000000 in
/-- C7: when two classes tie for the top probability (all other classes
strictly below), `predict` selects the one with the lower ordinal index in
the fixed category ordering. -/
theorem predict_tie_break (probs : Category → ℚ) (c₁ c₂ : Category)
    (hrank : c₁.rank < c₂.rank)
    (heq : probs c₁ = probs c₂)
    (hstrict : ∀ c, c ≠ c₁ → c ≠ c₂ → probs c < probs c₁) :
    predictCore probs = (c₁, probs c₁) := by
  have hmax : ∀ c, probs c ≤ probs c₁ := by
    intro c
    by_cases h1 : c = c₁
    · exact h1 ▸ le_refl _
    by_cases h2 : c = c₂
    · exact h2 ▸ heq.ge
    exact (hstrict c h1 h2).le
  have hA := hmax Category.DUPLICATE_CHARGE
  have hB := hmax Category.FAILED_TRANSACTION
  have hC := hmax Category.FRAUD
  have hD := hmax Category.OTHERS
  have hE := hmax Category.REFUND_PENDING
  cases c₁ <;> cases c₂ <;>
    first
      | exact absurd hrank (by decide)
      | (try have s1 := hstrict Category.DUPLICATE_CHARGE (by decide) (by decide)
         try have s2 := hstrict Category.FAILED_TRANSACTION (by decide) (by decide)
         try have s3 := hstrict Category.FRAUD (by decide) (by decide)
         try have s4 := hstrict Category.OTHERS (by decide) (by decide)
         try have s5 := hstrict Category.REFUND_PENDING (by decide) (by decide)
         simp only [predictCore, pickBest]
         split_ifs <;> (first | rfl | (exfalso; linarith)))

/-- A distribution with `FAILED_TRANSACTION` and `FRAUD` tied on top. -/
def probsW : Category → ℚ
  | Category.DUPLICATE_CHARGE => 1/10
  | Category.FAILED_TRANSACTION => 2/5
  | Category.FRAUD => 2/5
  | Category.OTHERS => 1/20
  | Category.REFUND_PENDING => 1/20

/-- Concrete instance of the tie-break theorem: with `FAILED_TRANSACTION`
and `FRAUD` tied on top, the lower-ordinal `FAILED_TRANSACTION` wins. -/
theorem predict_tie_break_witness :
    predictCore probsW = (Category.FAILED_TRANSACTION,
      probsW Category.FAILED_TRANSACTION) :=
  predict_tie_break probsW Category.FAILED_TRANSACTION Category.FRAUD
    (by decide) rfl
    (fun c h1 h2 => by
      cases c <;>
        first
          | exact absurd rfl h1
          | exact absurd rfl h2
          | norm_num [probsW])

/-- C6: scanning the empty transaction list yields the empty result (not an
error), and `scan` is a pure function of its immutable input: two runs on
the same list return identical results. -/
theorem scan_empty_deterministic :
    scan [] = []
    ∧ ∀ (ts : List TransactionRecord) (r₁ r₂ : List DuplicateCandidatePair),
        r₁ = scan ts → r₂ = scan ts → r₁ = r₂ :=
  ⟨rfl, fun _ _ _ h₁ h₂ => h₁.trans h₂.symm⟩

/-- Concrete instance of the scan determinism theorem. -/
theorem scan_empty_deterministic_witness :
    scan [txnA, txnB400] = scan [txnA, txnB400] :=
  scan_empty_deterministic.2 [txnA, txnB400] _ _ rfl rfl

/-- The status options of the `StatusUpdater` dropdown, from
`frontend/app/components/StatusUpdater.tsx` (`const STATUSES`). -/
def STATUSES : List String := ["OPEN", "IN_REVIEW", "RESOLVED", "CLOSED"]

/-- The string label of each status value, as serialized into the update
request body. -/
def statusLabel : Status → String
  | Status.OPEN => "OPEN"
  | Status.IN_REVIEW => "IN_REVIEW"
  | Status.RESOLVED => "RESOLVED"
  | Status.CLOSED => "CLOSED"

/-- The four-element status enumeration of `frontend/app/types/index.ts`. -/
def statusList : List Status :=
  [Status.OPEN, Status.IN_REVIEW, Status.RESOLVED, Status.CLOSED]

/-- The `StatusUpdater` selection state: `selectedStatus` starts at the
record's current status and each dropdown selection overwrites it (the
`select` element offers exactly the `STATUSES` options); pressing `Update`
submits the final `selectedStatus`. -/
def submittedStatus (currentStatus : String) (selections : List String) : String :=
  selections.foldl (fun _ s => s) currentStatus

/-- C8: every record's status is one of the four enum values; `classify`
creates records with `status = OPEN`; the updater's selectable options are
exactly the four status labels; and whatever the updater submits is drawn
from `STATUSES` whenever the current status is. -/
theorem status_invariant :
    (∀ r : DisputeRecord, r.status ∈ statusList)
    ∧ STATUSES = statusList.map statusLabel
    ∧ (∀ (ctx : PipelineContext)
        (svc : String → Category → Except PipelineError Explanation)
        (d cu tx di : String) (ca : Int) (rec : DisputeRecord),
        classify ctx svc d cu tx di ca = Except.ok rec → rec.status = Status.OPEN)
    ∧ (∀ (cur : String) (evs : List String), cur ∈ STATUSES →
        (∀ e ∈ evs, e ∈ STATUSES) → submittedStatus cur evs ∈ STATUSES) := by
  refine ⟨fun r => ?_, rfl, ?_, ?_⟩
  · cases h : r.status <;> decide
  · intro ctx svc d cu tx di ca rec hok
    unfold classify at hok
    split at hok
    · cases hok
    · split at hok
      · cases hok
      · have h := Except.ok.inj hok
        subst h
        rfl
  · intro cur evs
    induction evs generalizing cur with
    | nil => intro h _; exact h
    | cons e rest ih =>
      intro _ hall
      have hstep : submittedStatus cur (e :: rest) = submittedStatus e rest := rfl
      rw [hstep]
      exact ih e (hall e (List.mem_cons_self e rest))
        (fun x hx => hall x (List.mem_cons_of_mem e hx))

/-- Concrete instance of the status invariant: the classified witness
record is created `OPEN`, and a submitted selection stays within
`STATUSES`. -/
theorem status_invariant_witness :
    recW.status = Status.OPEN
    ∧ submittedStatus "OPEN" ["IN_REVIEW", "RESOLVED"] ∈ STATUSES :=
  ⟨status_invariant.2.2.1 ctxW svcOk "charged twice" "C1" "T1" "D1" 0 recW rfl,
   status_invariant.2.2.2 "OPEN" ["IN_REVIEW", "RESOLVED"] (by decide) (by decide)⟩

namespace DisputeDetailPage

/-- `getStatusBadgeClass` as defined inside the dispute-detail page
(`frontend/app/dispute/[disputeId]/page.tsx`). -/
def getStatusBadgeClass (status : String) : String :=
  if status = "OPEN" then "status-open"
  else if status = "IN_REVIEW" then "status-in-review"
  else if status = "RESOLVED" then "status-resolved"
  else if status = "CLOSED" then "status-closed"
  else "bg-gray-100 text-gray-800 border border-gray-200"

/-- `getCategoryBadgeClass` as defined inside the dispute-detail page. -/
def getCategoryBadgeClass (category : String) : String :=
  if category = "FRAUD" then "category-fraud"
  else if category = "DUPLICATE_CHARGE" then "category-duplicate"
  else if category = "FAILED_TRANSACTION" then "category-failed"
  else if category = "REFUND_PENDING" then "category-refund"
  else "category-others"

end DisputeDetailPage

namespace DisputesTable

/-- `getStatusBadgeClass` as defined at the top of
`frontend/app/components/DisputesTable.tsx`. -/
def getStatusBadgeClass (status : String) : String :=
  if status = "OPEN" then "status-open"
  else if status = "IN_REVIEW" then "status-in-review"
  else if status = "RESOLVED" then "status-resolved"
  else if status = "CLOSED" then "status-closed"
  else "bg-gray-100 text-gray-800 border border-gray-200"

/-- `getCategoryBadgeClass` as defined at the top of `DisputesTable.tsx`. -/
def getCategoryBadgeClass (category : String) : String :=
  if category = "FRAUD" then "category-fraud"
  else if category = "DUPLICATE_CHARGE" then "category-duplicate"
  else if category = "FAILED_TRANSACTION" then "category-failed"
  else if category = "REFUND_PENDING" then "category-refund"
  else "category-others"

end DisputesTable

/-- C9: the two independent copies of `getStatusBadgeClass` and of
`getCategoryBadgeClass` — one pair in the dispute-detail page, one in
`DisputesTable` — are extensionally equal on every input string. -/
theorem badge_classes_agree :
    ∀ s c : String,
      DisputeDetailPage.getStatusBadgeClass s = DisputesTable.getStatusBadgeClass s
      ∧ DisputeDetailPage.getCategoryBadgeClass c = DisputesTable.getCategoryBadgeClass c :=
  fun _ _ => ⟨rfl, rfl⟩

/-- The sender of a chat message, from the `Message` interface in
`ChatInterface.tsx`. -/
inductive Sender where
  | user
  | ai
  deriving DecidableEq, Repr

/-- A chat message, from the `Message` interface in `ChatInterface.tsx`. -/
structure Message where
  id : Nat
  text : String
  sender : Sender
  deriving DecidableEq, Repr

/-- Whitespace trimming (structural form of `String.trim` / JavaScript
`input.trim()`, over the underlying character list so that it evaluates by
reduction). -/
def trimStr (s : String) : String :=
  ⟨((s.data.dropWhile Char.isWhitespace).reverse.dropWhile Char.isWhitespace).reverse⟩

/-- The `ChatInterface` component state: the message list, the text-area
content and the loading flag, plus the number of chat requests in flight —
`pending` instruments the `fetch` issued by `handleSubmit` and completed by
its `finally` block, to state the at-most-one-request property. -/
structure ChatState where
  messages : List Message
  input : String
  isLoading : Bool
  pending : Nat
  deriving DecidableEq, Repr

/-- The greeting message seeded into the chat, sent by the AI. -/
def greeting : Message :=
  { id := 1
    text := "Hello! I am your AI assistant for dispute data analysis. What would you like to know?"
    sender := Sender.ai }

/-- The initial `ChatInterface` state: a single AI greeting message, empty
input, not loading, no request in flight. -/
def initialChatState : ChatState :=
  { messages := [greeting]
    input := ""
    isLoading := false
    pending := 0 }

/-- `handleSubmit` from `ChatInterface.tsx`: if the trimmed input is empty
or a request is already loading it returns without doing anything;
otherwise it appends the user message (carrying the untrimmed input text),
clears the input, sets the loading flag and issues the chat request. -/
def handleSubmit (s : ChatState) (now : Nat) : ChatState :=
  if trimStr s.input = "" ∨ s.isLoading = true then s
  else
    { messages := s.messages ++ [{ id := now, text := s.input, sender := Sender.user }]
      input := ""
      isLoading := true
      pending := s.pending + 1 }

/-- The events driving the `ChatInterface` state machine: editing the text
area (`onChange`), submitting the form (`handleSubmit`), and the resolution
of the outstanding chat request (`then`/`catch` append an AI message —
answer or error text — and the `finally` block clears the loading flag). -/
inductive ChatEvent where
  | setInput (text : String)
  | submit (now : Nat)
  | response (now : Nat) (answer : String)

/-- One step of the `ChatInterface` state machine.  A response event with
no request in flight changes nothing. -/
def chatStep (s : ChatState) : ChatEvent → ChatState
  | ChatEvent.setInput t => { s with input := t }
  | ChatEvent.submit now => handleSubmit s now
  | ChatEvent.response now ans =>
      if s.pending = 0 then s
      else
        { s with
          messages := s.messages ++ [{ id := now, text := ans, sender := Sender.ai }]
          isLoading := false
          pending := s.pending - 1 }

/-- Run the chat interface from its initial state over a list of events. -/
def chatRun (evs : List ChatEvent) : ChatState :=
  evs.foldl chatStep initialChatState

/-- The `ChatInterface` invariant: the number of requests in flight is 1
exactly while loading (0 otherwise), and every user message has non-blank
text. -/
def ChatInv (s : ChatState) : Prop :=
  s.pending = (if s.isLoading then 1 else 0)
  ∧ ∀ m ∈ s.messages, m.sender = Sender.user → trimStr m.text ≠ ""

/-- Every event of the chat state machine preserves the invariant. -/
theorem chatStep_inv {s : ChatState} (h : ChatInv s) :
    ∀ e : ChatEvent, ChatInv (chatStep s e) := by
  intro e
  cases e with
  | setInput t => exact h
  | submit now =>
    show ChatInv (handleSubmit s now)
    unfold handleSubmit
    by_cases hg : trimStr s.input = "" ∨ s.isLoading = true
    · rw [if_pos hg]
      exact h
    · rw [if_neg hg]
      push_neg at hg
      obtain ⟨hne, hload⟩ := hg
      have hload2 : s.isLoading = false := by
        cases hld : s.isLoading
        · rfl
        · exact absurd hld hload
      constructor
      · have := h.1
        rw [hload2] at this
        simp [this]
      · intro m hm hu
        rcases List.mem_append.mp hm with hm | hm
        · exact h.2 m hm hu
        · rcases List.mem_singleton.mp hm with rfl
          exact hne
  | response now ans =>
    show ChatInv (if s.pending = 0 then s else _)
    by_cases hp : s.pending = 0
    · rw [if_pos hp]
      exact h
    · rw [if_neg hp]
      have hload : s.isLoading = true := by
        cases hld : s.isLoading
        · exfalso
          have h1 := h.1
          rw [hld] at h1
          simp at h1
          exact hp h1
        · rfl
      have hp1 : s.pending = 1 := by
        have := h.1
        rw [hload] at this
        simpa using this
      constructor
      · simp [hp1]
      · intro m hm hu
        rcases List.mem_append.mp hm with hm | hm
        · exact h.2 m hm hu
        · rcases List.mem_singleton.mp hm with rfl
          cases hu

/-- Folding the step function from any state satisfying the invariant
keeps it. -/
theorem foldl_chat_inv :
    ∀ (evs : List ChatEvent) (s : ChatState), ChatInv s →
      ChatInv (evs.foldl chatStep s)
  | [], _, h => h
  | e :: rest, s, h => foldl_chat_inv rest (chatStep s e) (chatStep_inv h e)

/-- Any reachable `ChatInterface` state satisfies the invariant. -/
theorem chatRun_inv (evs : List ChatEvent) : ChatInv (chatRun evs) := by
  have h0 : ChatInv initialChatState := by
    constructor
    · rfl
    · intro m hm hu
      rcases List.mem_singleton.mp hm with rfl
      cases hu
  exact foldl_chat_inv evs initialChatState h0

/-- C10: when the trimmed input is empty or a request is already loading,
`handleSubmit` leaves the state unchanged (no message appended, no request
issued); consequently in every reachable state each user message has
non-blank text and at most one chat request is in flight. -/
theorem chat_submit_guard :
    (∀ (s : ChatState) (now : Nat),
        trimStr s.input = "" ∨ s.isLoading = true →
          chatStep s (ChatEvent.submit now) = s)
    ∧ (∀ evs : List ChatEvent,
        (∀ m ∈ (chatRun evs).messages, m.sender = Sender.user → trimStr m.text ≠ "")
          ∧ (chatRun evs).pending ≤ 1) := by
  constructor
  · intro s now h
    show handleSubmit s now = s
    unfold handleSubmit
    rw [if_pos h]
  · intro evs
    have h := chatRun_inv evs
    refine ⟨h.2, ?_⟩
    rw [h.1]
    split
    · exact le_refl 1
    · exact Nat.zero_le 1

/-- A concrete event trace: type a question, submit it, receive the
answer. -/
def evsW : List ChatEvent :=
  [ChatEvent.setInput "How many fraud cases are there?", ChatEvent.submit 2,
   ChatEvent.response 3 "There are 4 fraud cases."]

/-- Concrete instance of the chat-guard theorem: submitting with
whitespace-only input changes nothing, the submitted user message of the
concrete trace is non-blank, and its in-flight count never exceeds one. -/
theorem chat_submit_guard_witness :
    chatStep { messages := [], input := "   ", isLoading := false, pending := 0 }
        (ChatEvent.submit 9)
      = { messages := [], input := "   ", isLoading := false, pending := 0 }
    ∧ trimStr "How many fraud cases are there?" ≠ ""
    ∧ (chatRun evsW).pending ≤ 1 :=
  ⟨chat_submit_guard.1 { messages := [], input := "   ", isLoading := false, pending := 0 }
      9 (Or.inl (by decide)),
   (chat_submit_guard.2 evsW).1
     { id := 2, text := "How many fraud cases are there?", sender := Sender.user }
     (by decide) rfl,
   (chat_submit_guard.2 evsW).2⟩
